import Mathlib

/-!
Verification of the journaling assistant's sentiment aggregation and
longitudinal-analysis engine (sentiment_analyzer.py, gamification.py,
dashboard.py, journal_analyzer.py, bot.py, models.py).

The Python code is shallowly embedded: floats become exact rationals,
classifier calls become explicit argument lists, database rows become
lists of records, and the one fallible operation (Python's `max` over a
possibly-empty sequence) returns an `Option`.
-/

namespace Journal

/-- Python's `max(iterable, key=f)` for a nonempty iterable `x :: l`:
the running best is replaced only when a later element's key is
strictly greater, so the first element attaining the maximum wins. -/
def pyMaxBy {α : Type} (f : α → ℚ) (x : α) (l : List α) : α :=
  l.foldl (fun acc y => if f acc < f y then y else acc) x

/-! ## SentimentAnalyzer (sentiment_analyzer.py) -/

/-- The eight aggregated channel scores (Plutchik's basic emotions). -/
structure EmotionScores where
  joy : ℚ
  trust : ℚ
  fear : ℚ
  surprise : ℚ
  sadness : ℚ
  disgust : ℚ
  anger : ℚ
  anticipation : ℚ
  deriving DecidableEq, Repr

/-- `plutchik_mapping`: the fine-grained labels feeding each channel. -/
def plutchikRelated (channel : String) : List String :=
  if channel = "joy" then ["joy", "excitement", "love"]
  else if channel = "trust" then ["admiration", "approval", "gratitude"]
  else if channel = "fear" then ["fear", "nervousness", "worry"]
  else if channel = "surprise" then ["surprise", "confusion", "amazement"]
  else if channel = "sadness" then ["sadness", "disappointment", "grief"]
  else if channel = "disgust" then ["disgust", "disapproval", "annoyance"]
  else if channel = "anger" then ["anger", "rage", "hate"]
  else if channel = "anticipation" then ["curiosity", "interest", "anticipation"]
  else []

/-- One channel of `_aggregate_emotions`: start at 0.0 and take the max
with each classifier score whose label maps to this channel. -/
def aggregateChannel (channel : String) (emotions : List (String × ℚ)) : ℚ :=
  emotions.foldl
    (fun acc e => if e.1 ∈ plutchikRelated channel then max acc e.2 else acc) 0

/-- `_aggregate_emotions`: aggregate fine-grained emotions into
Plutchik's basic emotions. -/
def aggregateEmotions (emotions : List (String × ℚ)) : EmotionScores where
  joy := aggregateChannel "joy" emotions
  trust := aggregateChannel "trust" emotions
  fear := aggregateChannel "fear" emotions
  surprise := aggregateChannel "surprise" emotions
  sadness := aggregateChannel "sadness" emotions
  disgust := aggregateChannel "disgust" emotions
  anger := aggregateChannel "anger" emotions
  anticipation := aggregateChannel "anticipation" emotions

/-- `_normalize_score`: clamp to [-1, 1]. -/
def normalizeScore (score : ℚ) : ℚ :=
  max (min score 1) (-1)

/-- Result record of `SentimentAnalyzer.analyze`. -/
structure AnalysisResult where
  emotions : EmotionScores
  compound_score : ℚ
  intensity : ℚ
  confidence : ℚ
  deriving DecidableEq, Repr

/-- `SentimentAnalyzer.analyze`, as a function of the classifier's raw
label/score list.  `confidence = max(emotions, key=...)['score']` raises
`ValueError` on an empty list, so the result is an `Option`: `none`
models the uncaught exception (no profile is produced). -/
def analyze (emotions : List (String × ℚ)) : Option AnalysisResult :=
  let pl := aggregateEmotions emotions
  let intensity := (pl.joy + pl.trust + pl.fear + pl.surprise +
    pl.sadness + pl.disgust + pl.anger + pl.anticipation) / 8
  let positive_score := (pl.joy + pl.trust + pl.anticipation) / 3
  let negative_score := (pl.fear + pl.sadness + pl.disgust + pl.anger) / 4
  let compound_score := normalizeScore (positive_score - negative_score)
  match emotions with
  | [] => none
  | e :: rest =>
    some { emotions := pl, compound_score := compound_score,
           intensity := intensity,
           confidence := (pyMaxBy Prod.snd e rest).2 }

/-! ## Dominant emotion (journal_analyzer.py `_get_dominant_emotion`)

`_get_dominant_emotion` builds a dict in the fixed insertion order
joy, trust, fear, surprise, sadness, disgust, anger, anticipation and
takes `max(emotions.items(), key=lambda x: x[1])[0]`.  The other sites
(`get_user_history`, `get_emotional_trends`, the `emotion_variety`
branch of `check_achievements`, pandas `idxmax` in the dashboard) list
the channels in the same order with the same first-wins max. -/

/-- The (channel name, score) pairs in the source's fixed order. -/
def channelPairs (s : EmotionScores) : List (String × ℚ) :=
  [("joy", s.joy), ("trust", s.trust), ("fear", s.fear),
   ("surprise", s.surprise), ("sadness", s.sadness),
   ("disgust", s.disgust), ("anger", s.anger),
   ("anticipation", s.anticipation)]

/-- The winning (name, score) pair of `_get_dominant_emotion`. -/
def dominantPair (s : EmotionScores) : String × ℚ :=
  pyMaxBy Prod.snd ("joy", s.joy)
    [("trust", s.trust), ("fear", s.fear), ("surprise", s.surprise),
     ("sadness", s.sadness), ("disgust", s.disgust), ("anger", s.anger),
     ("anticipation", s.anticipation)]

/-- `_get_dominant_emotion`: the name of the winning channel. -/
def getDominantEmotion (s : EmotionScores) : String :=
  (dominantPair s).1

/-- Spec-side definition: the maximum value among the 8 channels. -/
def maxChannelValue (s : EmotionScores) : ℚ :=
  max s.joy (max s.trust (max s.fear (max s.surprise
    (max s.sadness (max s.disgust (max s.anger s.anticipation))))))

/-! ## Trend direction (bot.py `view_history` and dashboard.py) -/

/-- bot.py line 304: mean of the first 3 compound scores, or the single
first entry when fewer than 3 exist. -/
def botAvgStart (l : List ℚ) : ℚ :=
  if 3 ≤ l.length then (l.take 3).sum / 3 else l.headD 0

/-- bot.py line 305: mean of the last 3 compound scores, or the single
last entry when fewer than 3 exist. -/
def botAvgEnd (l : List ℚ) : ℚ :=
  if 3 ≤ l.length then (l.drop (l.length - 3)).sum / 3
  else (l.getLast?).getD 0

/-- bot.py line 306: three-way trend label. -/
def botTrendDirection (l : List ℚ) : String :=
  if botAvgStart l < botAvgEnd l then "improving"
  else if botAvgEnd l < botAvgStart l then "declining"
  else "stable"

/-- pandas `Series.mean()` over an up-to-3-element slice. -/
def sliceMean (l : List ℚ) : ℚ :=
  l.sum / l.length

/-- dashboard.py line 175: `"improving" if df['compound_score']
.iloc[-3:].mean() > df['compound_score'].iloc[:3].mean() else
"declining"` — note there is no "stable" branch. -/
def dashboardSentimentTrend (l : List ℚ) : String :=
  if sliceMean (l.take 3) < sliceMean (l.drop (l.length - 3))
  then "improving" else "declining"

/-! ## Streak computation (gamification.py `update_profile_stats`,
lines 139-157) -/

/-- The streak loop of lines 145-150: `prev` is `dates[i-1]`, `cur` is
`current_streak`, `mx` is `max_streak`; a gap of exactly 1 day extends
the run, anything else (including a repeated date, gap 0) resets it. -/
def streakLoop : ℤ → ℤ → ℤ → List ℤ → ℤ × ℤ
  | _, cur, mx, [] => (cur, mx)
  | prev, cur, mx, d :: ds =>
    if d - prev = 1 then streakLoop d (cur + 1) (max mx (cur + 1)) ds
    else streakLoop d 1 mx ds

/-- Lines 140-157: sort the entry dates (calendar days as integers),
run the streak loop, and zero the current streak when the most recent
date is more than 1 day before `today`.  Returns
(current_streak, max_streak).  Python's `sorted` is modelled by
insertion sort: on integers any correct sort produces the same list. -/
def computeStreaks (dates : List ℤ) (today : ℤ) : ℤ × ℤ :=
  match dates.insertionSort (· ≤ ·) with
  | [] => (0, 0)
  | d :: ds =>
    let r := streakLoop d 1 1 ds
    (if 1 < today - (d :: ds).getLastD 0 then 0 else r.1, r.2)

/-- Spec-side notion: a run of `n` consecutive calendar days ending at
`d` (that is, `d, d-1, ..., d-n+1`) each carrying at least one entry. -/
def isRun (dates : List ℤ) (d : ℤ) (n : ℤ) : Prop :=
  ∀ k : ℕ, (k : ℤ) < n → (d - (k : ℤ)) ∈ dates

instance (dates : List ℤ) (d : ℤ) (n : ℤ) : Decidable (isRun dates d n) := by
  refine decidable_of_iff (∀ k < n.toNat, (d - (k : ℤ)) ∈ dates) ⟨?_, ?_⟩
  · intro h k hk
    exact h k (by omega)
  · intro h k hk
    exact h k (by omega)

/-! ## User profiles (models.py `UserProfile`,
gamification.py `update_profile_stats`) -/

/-- A journal entry as the stats update sees it: its calendar day, its
word count, and the compound score of its sentiment row when one
exists. -/
structure JEntry where
  day : ℤ
  words : ℕ
  compound : Option ℚ
  deriving DecidableEq, Repr

/-- The mutable statistics of `UserProfile`. -/
structure Profile where
  total_entries : ℕ
  total_words : ℕ
  avg_sentiment : ℚ
  streak_days : ℤ
  longest_streak : ℤ
  reflection_score : ℚ
  deriving DecidableEq, Repr

/-- Python `max` over a nonempty list of rationals. -/
def listMax (l : List ℚ) : ℚ :=
  l.foldl max (l.headD 0)

/-- Python `min` over a nonempty list of rationals. -/
def listMin (l : List ℚ) : ℚ :=
  l.foldl min (l.headD 0)

/-- `update_profile_stats` (lines 129-181): recompute totals, average
sentiment, streaks and the reflection score from the full entry list.
`entries` is in query order; `longest_streak` takes the max with the
previously stored value. -/
def updateProfileStats (entries : List JEntry) (old : Profile)
    (today : ℤ) : Profile :=
  let sentiments := entries.filterMap (·.compound)
  let avgSentiment := if sentiments = [] then 0
    else sentiments.sum / sentiments.length
  let r := computeStreaks (entries.map (·.day)) today
  let reflection := match entries.getLast? with
    | none => old.reflection_score
    | some latest => match latest.compound with
      | none => 0
      | some c =>
        let sentimentRange := if sentiments = [] then 0
          else listMax sentiments - listMin sentiments
        min 100 (((latest.words : ℚ) / 200) * 40 +
          sentimentRange * 30 + |c| * 30)
  { total_entries := entries.length
    total_words := (entries.map (·.words)).sum
    avg_sentiment := avgSentiment
    streak_days := r.1
    longest_streak := max r.2 old.longest_streak
    reflection_score := reflection }

/-! ## Achievements (models.py, gamification.py `check_achievements`) -/

/-- `Achievement.criteria_type` values seeded by `_init_achievements`. -/
inductive CriteriaType where
  | totalEntries
  | streak
  | reflectionScore
  | totalWords
  | emotionVariety
  | sentimentTrend
  deriving DecidableEq, Repr

/-- A row of the static `achievements` catalog. -/
structure AchievementDef where
  id : ℕ
  ctype : CriteriaType
  cvalue : ℚ
  deriving DecidableEq, Repr

/-- A `user_achievements` row for one user.  `earned_at` is filled by
the column default (row-creation time) whether or not the row records
an earned achievement — models.py line 119. -/
structure UARow where
  achievement_id : ℕ
  progress : ℚ
  earned_at : ℤ
  deriving DecidableEq, Repr

/-- Lines 262-268: the simple linear-regression slope of the scores
against x = 0, 1, ..., n-1. -/
def regressionSlope (y : List ℚ) : ℚ :=
  let n : ℚ := y.length
  let xs := (List.range y.length).map (fun i => (i : ℚ))
  let sxy := ((xs.zip y).map (fun p => p.1 * p.2)).sum
  (n * sxy - xs.sum * y.sum) / (n * (xs.map (fun v => v * v)).sum - xs.sum * xs.sum)

/-- Lines 245-272, the `sentiment_trend` branch: over the 30-day window
`window` (one `Option ℚ` compound score per entry, entries in ascending
timestamp order), require at least 10 entries, then regress the
sentiment-bearing scores; progress is the slope scaled by 1000 and
clamped to [0, 100]; earned requires a positive slope and progress at
least 50.  Returns (progress, earned). -/
def sentimentTrendEval (window : List (Option ℚ)) : ℚ × Bool :=
  if 10 ≤ window.length then
    let sentiments := window.filterMap id
    if sentiments.length ≠ 0 then
      let n := sentiments.length
      if 1 < n then
        let slope := regressionSlope sentiments
        let progress := max 0 (min 100 (slope * 1000))
        (progress, decide (0 < slope) && decide (50 ≤ progress))
      else (0, false)
    else (0, false)
  else (0, false)

/-- A concrete 30-day window with 10 sentiment-bearing entries whose
compound scores rise by 1/25 per entry (regression slope exactly
1/25 = 0.04). -/
def trendWindowExample : List (Option ℚ) :=
  [some 0, some (1/25), some (2/25), some (3/25), some (4/25),
   some (5/25), some (6/25), some (7/25), some (8/25), some (9/25)]

/-- Lines 208-272: progress and earned flag for one achievement.
`recent` carries the sentiment channel scores of the 10 most recent
entries (`None` for entries without a sentiment row); `window` carries
the compound scores of the last-30-days window. -/
def evalCriteria (a : AchievementDef) (p : Profile)
    (recent : List (Option EmotionScores)) (window : List (Option ℚ)) :
    ℚ × Bool :=
  match a.ctype with
  | .totalEntries =>
    (((p.total_entries : ℚ) / a.cvalue) * 100,
     decide (a.cvalue ≤ (p.total_entries : ℚ)))
  | .streak =>
    (((p.streak_days : ℚ) / a.cvalue) * 100,
     decide (a.cvalue ≤ (p.streak_days : ℚ)))
  | .reflectionScore =>
    ((p.reflection_score / a.cvalue) * 100,
     decide (a.cvalue ≤ p.reflection_score))
  | .totalWords =>
    (((p.total_words : ℚ) / a.cvalue) * 100,
     decide (a.cvalue ≤ (p.total_words : ℚ)))
  | .emotionVariety =>
    let emotions := ((recent.filterMap id).map getDominantEmotion).dedup
    (((emotions.length : ℚ) / a.cvalue) * 100,
     decide (a.cvalue ≤ (emotions.length : ℚ)))
  | .sentimentTrend => sentimentTrendEval window

/-- Lines 199-302 for a single achievement: skip when *any*
`UserAchievement` row for this achievement already exists (the
`# Skip if already earned` check, line 201, matches in-progress rows
too); otherwise append an earned row with progress 100, or store the
computed progress.  The update branch for an existing progress row is
kept for fidelity although the skip check makes it unreachable. -/
def checkOne (p : Profile) (recent : List (Option EmotionScores))
    (window : List (Option ℚ)) (now : ℤ) (rows : List UARow)
    (a : AchievementDef) : List UARow :=
  if rows.any (fun r => r.achievement_id = a.id) then rows
  else
    let pe := evalCriteria a p recent window
    if pe.2 then
      rows ++ [{ achievement_id := a.id, progress := 100, earned_at := now }]
    else
      if rows.any (fun r => r.achievement_id = a.id) then
        rows.map (fun r => if r.achievement_id = a.id
          then { r with progress := pe.1 } else r)
      else
        rows ++ [{ achievement_id := a.id, progress := pe.1, earned_at := now }]

/-- `check_achievements`: one evaluation pass over the achievement
catalog, threading the user's `user_achievements` rows. -/
def checkAchievements (achs : List AchievementDef) (p : Profile)
    (recent : List (Option EmotionScores)) (window : List (Option ℚ))
    (now : ℤ) (rows : List UARow) : List UARow :=
  achs.foldl (checkOne p recent window now) rows

/-! ## Event detection (journal_analyzer.py `generate_life_story`,
lines 1116-1142) -/

/-- The means of the sentiment-bearing scores of each sliding 5-entry
window, in order; windows whose entries all lack sentiment contribute
nothing (the loop leaves `prev_sentiment` unchanged for them). -/
def windowMeans (entries : List (Option ℚ)) : List ℚ :=
  ((List.range (entries.length + 1 - 5)).map
      (fun i => ((entries.drop i).take 5).filterMap id)).filterMap
    (fun s => if s.length ≠ 0 then some (s.sum / s.length) else none)

/-- The `prev_sentiment` loop of lines 1117-1142, reduced to the shift
magnitudes it records: a shift is appended when the new window mean
differs from the previous one by strictly more than 0.5. -/
def detectLoop : Option ℚ → List ℚ → List ℚ
  | _, [] => []
  | none, a :: rest => detectLoop (some a) rest
  | some p, a :: rest =>
    if 1/2 < |a - p| then (a - p) :: detectLoop (some a) rest
    else detectLoop (some a) rest

/-- The shift magnitudes flagged over a run of entries. -/
def sentimentShifts (entries : List (Option ℚ)) : List ℚ :=
  detectLoop none (windowMeans entries)

/-- Spec-side definition: exactly the consecutive pairs of window means
whose absolute difference exceeds 0.5. -/
def flaggedPairs (means : List ℚ) : List ℚ :=
  (means.zip means.tail).filterMap
    (fun p => if 1/2 < |p.2 - p.1| then some (p.2 - p.1) else none)

/-! ## Trend analysis results (dashboard.py `generate_mood_trends`,
journal_analyzer.py `get_emotional_trends`) -/

/-- One joined (ChatLog, MessageSentiment) row of the dashboard query. -/
structure DashRow where
  day : ℤ
  compound : ℚ
  channels : EmotionScores
  deriving DecidableEq, Repr

/-- Result of `generate_mood_trends`: the explicit no-data marker
(`{"success": False, "message": "No journal entries found..."}`) or the
stats of the success payload. -/
inductive MoodTrendsResult where
  | noData
  | ok (totalEntries : ℕ) (avgSentiment : ℚ) (dominantEmotion : String)
      (sentimentTrend : String) (startDay endDay : ℤ)
  deriving DecidableEq, Repr

/-- Per-channel means of the dashboard dataframe
(`df[emotions].mean()`). -/
def channelMeans (rows : List DashRow) : EmotionScores :=
  let n : ℚ := rows.length
  { joy := (rows.map (·.channels.joy)).sum / n
    trust := (rows.map (·.channels.trust)).sum / n
    fear := (rows.map (·.channels.fear)).sum / n
    surprise := (rows.map (·.channels.surprise)).sum / n
    sadness := (rows.map (·.channels.sadness)).sum / n
    disgust := (rows.map (·.channels.disgust)).sum / n
    anger := (rows.map (·.channels.anger)).sum / n
    anticipation := (rows.map (·.channels.anticipation)).sum / n }

/-- `generate_mood_trends` (lines 86-186), reduced to its data: an
empty dataframe returns the no-data marker before any statistic is
computed; otherwise the stats block of lines 171-180 runs. -/
def generateMoodTrends (rows : List DashRow) : MoodTrendsResult :=
  if rows = [] then .noData
  else
    let compounds := rows.map (·.compound)
    .ok rows.length (compounds.sum / compounds.length)
      (getDominantEmotion (channelMeans rows))
      (dashboardSentimentTrend compounds)
      ((rows.map (·.day)).foldl min ((rows.map (·.day)).headD 0))
      ((rows.map (·.day)).foldl max ((rows.map (·.day)).headD 0))

/-- A full sentiment row as `get_emotional_trends` reads it. -/
structure SentFull where
  scores : EmotionScores
  compound : ℚ
  deriving DecidableEq, Repr

/-- Result dict of `get_emotional_trends` (lines 437-448). -/
structure TrendsResult where
  dates : List ℤ
  compound_trend : List ℚ
  emotion_trends : List EmotionScores
  dominant_emotions : List String
  deriving DecidableEq, Repr

/-- `get_emotional_trends`: collect day, compound and channel scores of
each sentiment-bearing entry in ascending timestamp order; dominant
emotions are computed per entry with the same first-wins max; on an
empty window every list is empty. -/
def getEmotionalTrends (entries : List (ℤ × Option SentFull)) :
    TrendsResult :=
  let withSent := entries.filterMap
    (fun e => (e.2).map (fun s => (e.1, s)))
  let dates := withSent.map (·.1)
  { dates := dates
    compound_trend := withSent.map (·.2.compound)
    emotion_trends := withSent.map (·.2.scores)
    dominant_emotions := if dates = [] then []
      else (withSent.map (·.2.scores)).map getDominantEmotion }

/-! ## Helper lemmas -/

theorem pyMaxBy_le (f : α → ℚ) :
    ∀ (l : List α) (x : α), f x ≤ f (pyMaxBy f x l) := by
  intro l
  induction l with
  | nil => intro x; exact le_refl _
  | cons y ys ih =>
    intro x
    simp only [pyMaxBy, List.foldl_cons]
    by_cases h : f x < f y
    · simp only [if_pos h]
      exact le_of_lt (lt_of_lt_of_le h (ih y))
    · simp only [if_neg h]
      exact ih x

theorem pyMaxBy_eq_or_lt (f : α → ℚ) :
    ∀ (l : List α) (x : α), pyMaxBy f x l = x ∨ f x < f (pyMaxBy f x l) := by
  intro l
  induction l with
  | nil => intro x; exact Or.inl rfl
  | cons y ys ih =>
    intro x
    simp only [pyMaxBy, List.foldl_cons]
    by_cases h : f x < f y
    · simp only [if_pos h]
      exact Or.inr (lt_of_lt_of_le h (pyMaxBy_le f ys y))
    · simp only [if_neg h]
      exact ih x

/-- The first element of `x :: l` whose key equals the key of
`pyMaxBy f x l` is `pyMaxBy f x l` itself: Python's `max` returns the
first element attaining the maximum key. -/
theorem pyMaxBy_find (f : α → ℚ) :
    ∀ (l : List α) (x : α),
      (x :: l).find? (fun y => decide (f y = f (pyMaxBy f x l))) =
        some (pyMaxBy f x l) := by
  intro l
  induction l with
  | nil =>
    intro x
    simp [pyMaxBy, List.find?]
  | cons y ys ih =>
    intro x
    by_cases h : f x < f y
    · have hrw : pyMaxBy f x (y :: ys) = pyMaxBy f y ys := by
        simp [pyMaxBy, List.foldl_cons, if_pos h]
      rw [hrw]
      have hx : f x ≠ f (pyMaxBy f y ys) :=
        ne_of_lt (lt_of_lt_of_le h (pyMaxBy_le f ys y))
      have := ih y
      simp only [List.find?]
      rw [decide_eq_false hx]
      exact this
    · have hrw : pyMaxBy f x (y :: ys) = pyMaxBy f x ys := by
        simp [pyMaxBy, List.foldl_cons, if_neg h]
      rw [hrw]
      rcases pyMaxBy_eq_or_lt f ys x with heq | hlt
      · rw [heq]
        simp [List.find?]
      · have hx : f x ≠ f (pyMaxBy f x ys) := ne_of_lt hlt
        have hy : f y ≠ f (pyMaxBy f x ys) :=
          ne_of_lt (lt_of_le_of_lt (le_of_not_lt h) hlt)
        have hys := ih x
        simp only [List.find?] at hys ⊢
        rw [decide_eq_false hx] at hys ⊢
        rw [decide_eq_false hy]
        exact hys

/-- Key of the Python max is the max of the keys. -/
theorem pyMaxBy_key (f : α → ℚ) :
    ∀ (l : List α) (x : α),
      f (pyMaxBy f x l) = (l.map f).foldl max (f x) := by
  intro l
  induction l with
  | nil => intro x; rfl
  | cons y ys ih =>
    intro x
    simp only [pyMaxBy, List.foldl_cons, List.map_cons]
    by_cases h : f x < f y
    · rw [if_pos h]
      have : max (f x) (f y) = f y := max_eq_right (le_of_lt h)
      rw [this]
      exact ih y
    · rw [if_neg h]
      have : max (f x) (f y) = f x := max_eq_left (le_of_not_lt h)
      rw [this]
      exact ih x

theorem dominantPair_snd (s : EmotionScores) :
    (dominantPair s).2 = maxChannelValue s := by
  have h := pyMaxBy_key (α := String × ℚ) Prod.snd
    [("trust", s.trust), ("fear", s.fear), ("surprise", s.surprise),
     ("sadness", s.sadness), ("disgust", s.disgust), ("anger", s.anger),
     ("anticipation", s.anticipation)] ("joy", s.joy)
  rw [dominantPair, h]
  simp only [List.map_cons, List.map_nil, List.foldl_cons, List.foldl_nil]
  simp [maxChannelValue, max_assoc]

/-- The channel-aggregation fold stays in [0, 1] as long as it starts
there and every classifier score is at most 1. -/
theorem aggregateChannel_fold_bounds (channel : String) :
    ∀ (l : List (String × ℚ)) (acc : ℚ), 0 ≤ acc → acc ≤ 1 →
      (∀ e ∈ l, e.2 ≤ 1) →
      0 ≤ l.foldl (fun acc e =>
          if e.1 ∈ plutchikRelated channel then max acc e.2 else acc) acc ∧
        l.foldl (fun acc e =>
          if e.1 ∈ plutchikRelated channel then max acc e.2 else acc) acc ≤ 1 := by
  intro l
  induction l with
  | nil => intro acc h0 h1 _; exact ⟨h0, h1⟩
  | cons e es ih =>
    intro acc h0 h1 hall
    simp only [List.foldl_cons]
    by_cases hm : e.1 ∈ plutchikRelated channel
    · rw [if_pos hm]
      refine ih (max acc e.2) (le_trans h0 (le_max_left _ _))
        (max_le h1 (hall e (List.mem_cons_self e es))) ?_
      intro x hx
      exact hall x (List.mem_cons_of_mem e hx)
    · rw [if_neg hm]
      refine ih acc h0 h1 ?_
      intro x hx
      exact hall x (List.mem_cons_of_mem e hx)

theorem aggregateChannel_bounds (channel : String)
    (emotions : List (String × ℚ)) (hsc : ∀ e ∈ emotions, e.2 ≤ 1) :
    0 ≤ aggregateChannel channel emotions ∧
      aggregateChannel channel emotions ≤ 1 :=
  aggregateChannel_fold_bounds channel emotions 0 (le_refl 0)
    (by norm_num) hsc

theorem normalizeScore_bounds (x : ℚ) :
    -1 ≤ normalizeScore x ∧ normalizeScore x ≤ 1 := by
  unfold normalizeScore
  constructor
  · exact le_max_right _ _
  · exact max_le (min_le_right _ _) (by norm_num)

/-! ## Claim theorems -/

/-- C1.  For every classifier output (nonempty, scores in [0, 1] per
the classifier contract of spec §4.1), `analyze` returns a profile
whose 8 channel scores lie in [0, 1], whose compound score lies in
[-1, 1], and whose compound score is reproduced exactly by re-applying
clamp(mean(joy, trust, anticipation) - mean(fear, sadness, disgust,
anger), -1, 1) to the returned channel values. -/
theorem analyze_bounds_and_compound (emotions : List (String × ℚ))
    (hne : emotions ≠ [])
    (hsc : ∀ e ∈ emotions, 0 ≤ e.2 ∧ e.2 ≤ 1) :
    ∃ r, analyze emotions = some r ∧
      (0 ≤ r.emotions.joy ∧ r.emotions.joy ≤ 1) ∧
      (0 ≤ r.emotions.trust ∧ r.emotions.trust ≤ 1) ∧
      (0 ≤ r.emotions.fear ∧ r.emotions.fear ≤ 1) ∧
      (0 ≤ r.emotions.surprise ∧ r.emotions.surprise ≤ 1) ∧
      (0 ≤ r.emotions.sadness ∧ r.emotions.sadness ≤ 1) ∧
      (0 ≤ r.emotions.disgust ∧ r.emotions.disgust ≤ 1) ∧
      (0 ≤ r.emotions.anger ∧ r.emotions.anger ≤ 1) ∧
      (0 ≤ r.emotions.anticipation ∧ r.emotions.anticipation ≤ 1) ∧
      (-1 ≤ r.compound_score ∧ r.compound_score ≤ 1) ∧
      r.compound_score = normalizeScore
        ((r.emotions.joy + r.emotions.trust + r.emotions.anticipation) / 3 -
         (r.emotions.fear + r.emotions.sadness + r.emotions.disgust +
           r.emotions.anger) / 4) := by
  have hsc1 : ∀ e ∈ emotions, e.2 ≤ 1 := fun e he => (hsc e he).2
  cases emotions with
  | nil => exact absurd rfl hne
  | cons e rest =>
    refine ⟨_, rfl, ?_, ?_, ?_, ?_, ?_, ?_, ?_, ?_, ?_, rfl⟩
    · exact aggregateChannel_bounds "joy" (e :: rest) hsc1
    · exact aggregateChannel_bounds "trust" (e :: rest) hsc1
    · exact aggregateChannel_bounds "fear" (e :: rest) hsc1
    · exact aggregateChannel_bounds "surprise" (e :: rest) hsc1
    · exact aggregateChannel_bounds "sadness" (e :: rest) hsc1
    · exact aggregateChannel_bounds "disgust" (e :: rest) hsc1
    · exact aggregateChannel_bounds "anger" (e :: rest) hsc1
    · exact aggregateChannel_bounds "anticipation" (e :: rest) hsc1
    · exact normalizeScore_bounds _

/-- Witness for C1 at the concrete classifier output
[("joy", 1/2), ("grief", 1/4)]. -/
theorem analyze_bounds_and_compound_witness :
    ([("joy", (1 : ℚ)/2), ("grief", 1/4)] ≠ []) ∧
    (∀ e ∈ [("joy", (1 : ℚ)/2), ("grief", 1/4)], 0 ≤ e.2 ∧ e.2 ≤ 1) ∧
    ∃ r, analyze [("joy", (1 : ℚ)/2), ("grief", 1/4)] = some r ∧
      (0 ≤ r.emotions.joy ∧ r.emotions.joy ≤ 1) ∧
      (0 ≤ r.emotions.trust ∧ r.emotions.trust ≤ 1) ∧
      (0 ≤ r.emotions.fear ∧ r.emotions.fear ≤ 1) ∧
      (0 ≤ r.emotions.surprise ∧ r.emotions.surprise ≤ 1) ∧
      (0 ≤ r.emotions.sadness ∧ r.emotions.sadness ≤ 1) ∧
      (0 ≤ r.emotions.disgust ∧ r.emotions.disgust ≤ 1) ∧
      (0 ≤ r.emotions.anger ∧ r.emotions.anger ≤ 1) ∧
      (0 ≤ r.emotions.anticipation ∧ r.emotions.anticipation ≤ 1) ∧
      (-1 ≤ r.compound_score ∧ r.compound_score ≤ 1) ∧
      r.compound_score = normalizeScore
        ((r.emotions.joy + r.emotions.trust + r.emotions.anticipation) / 3 -
         (r.emotions.fear + r.emotions.sadness + r.emotions.disgust +
           r.emotions.anger) / 4) :=
  ⟨by decide, by norm_num,
    analyze_bounds_and_compound [("joy", (1 : ℚ)/2), ("grief", 1/4)]
      (by decide) (by norm_num)⟩

/-- C2.  When the classifier returns an empty label set, the
aggregation itself would give all-zero channels, but `analyze` produces
no profile at all: `confidence = max(emotions, ...)` raises
`ValueError` on the empty sequence (modelled as `none`), contradicting
the spec's "a profile must always exist for every entry". -/
theorem analyze_empty_no_profile :
    analyze [] = none ∧
      aggregateEmotions [] =
        { joy := 0, trust := 0, fear := 0, surprise := 0, sadness := 0,
          disgust := 0, anger := 0, anticipation := 0 } := by
  constructor <;> rfl

/-- C9.  A time window with zero entries yields the explicit no-data
marker from `generate_mood_trends` and the all-empty result record from
`get_emotional_trends`; neither computes any statistic from zero
entries. -/
theorem empty_window_no_data :
    generateMoodTrends [] = MoodTrendsResult.noData ∧
      getEmotionalTrends [] =
        { dates := [], compound_trend := [], emotion_trends := [],
          dominant_emotions := [] } := by
  constructor <;> rfl

/-- C10.  One pass of `update_profile_stats` never decreases the stored
`longest_streak`: the new value is the max of the recomputed streak and
the old stored value, so deleting entries cannot shrink it. -/
theorem longest_streak_monotone (entries : List JEntry) (old : Profile)
    (today : ℤ) :
    old.longest_streak ≤ (updateProfileStats entries old today).longest_streak :=
  le_max_right _ _

/-- C7.  `_get_dominant_emotion` returns the channel whose value is the
maximum of the 8, and among tied channels the first one in the fixed
order joy, trust, fear, surprise, sadness, disgust, anger, anticipation:
the first channel pair whose value equals the maximum is exactly the
returned one.  The other dominant-emotion sites list the channels in
the same order and use the same first-wins `max`. -/
theorem dominant_emotion_first_max (s : EmotionScores) :
    (channelPairs s).find? (fun p => decide (p.2 = maxChannelValue s)) =
      some (getDominantEmotion s, maxChannelValue s) := by
  have h2 := dominantPair_snd s
  have hfind := pyMaxBy_find (α := String × ℚ) Prod.snd
    [("trust", s.trust), ("fear", s.fear), ("surprise", s.surprise),
     ("sadness", s.sadness), ("disgust", s.disgust), ("anger", s.anger),
     ("anticipation", s.anticipation)] ("joy", s.joy)
  rw [← h2]
  have heta : ((getDominantEmotion s : String), (dominantPair s).2) =
      dominantPair s := Prod.mk.eta
  rw [heta]
  exact hfind

/-- C5 counterexample.  On six equal compound scores the first-3 and
last-3 means coincide, yet the dashboard's trend label is "declining",
not the claimed "stable": dashboard.py line 175 has no "stable"
branch. -/
theorem dashboard_trend_no_stable :
    dashboardSentimentTrend [1/2, 1/2, 1/2, 1/2, 1/2, 1/2] = "declining" ∧
    dashboardSentimentTrend [1/2, 1/2, 1/2, 1/2, 1/2, 1/2] ≠ "stable" := by
  have h : dashboardSentimentTrend [1/2, 1/2, 1/2, 1/2, 1/2, 1/2] =
      "declining" := by
    norm_num [dashboardSentimentTrend, sliceMean]
  exact ⟨h, by rw [h]; decide⟩

theorem botTrend_cases (l : List ℚ) :
    (botTrendDirection l = "improving" ↔ botAvgStart l < botAvgEnd l) ∧
    (botTrendDirection l = "declining" ↔ botAvgEnd l < botAvgStart l) ∧
    (botTrendDirection l = "stable" ↔ botAvgStart l = botAvgEnd l) := by
  unfold botTrendDirection
  by_cases h1 : botAvgStart l < botAvgEnd l
  · rw [if_pos h1]
    exact ⟨iff_of_true rfl h1,
      iff_of_false (by decide) (lt_asymm h1),
      iff_of_false (by decide) (ne_of_lt h1)⟩
  · rw [if_neg h1]
    by_cases h2 : botAvgEnd l < botAvgStart l
    · rw [if_pos h2]
      exact ⟨iff_of_false (by decide) h1,
        iff_of_true rfl h2,
        iff_of_false (by decide) (Ne.symm (ne_of_lt h2))⟩
    · rw [if_neg h2]
      exact ⟨iff_of_false (by decide) h1,
        iff_of_false (by decide) h2,
        iff_of_true rfl (le_antisymm (le_of_not_lt h2) (le_of_not_lt h1))⟩

theorem dashboardTrend_cases (l : List ℚ) :
    (dashboardSentimentTrend l = "improving" ↔
      sliceMean (l.take 3) < sliceMean (l.drop (l.length - 3))) ∧
    (dashboardSentimentTrend l = "declining" ↔
      ¬ sliceMean (l.take 3) < sliceMean (l.drop (l.length - 3))) := by
  unfold dashboardSentimentTrend
  by_cases h : sliceMean (l.take 3) < sliceMean (l.drop (l.length - 3))
  · rw [if_pos h]
    exact ⟨iff_of_true rfl h, iff_of_false (by decide) (not_not_intro h)⟩
  · rw [if_neg h]
    exact ⟨iff_of_false (by decide) h, iff_of_true rfl h⟩

/-- C5 amended.  The `!history` trend (bot.py lines 304-306) compares
the mean of the first 3 against the mean of the last 3 compound scores
(single first/last entry when fewer than 3 exist) with the three labels
improving/declining/stable; the dashboard's `sentiment_trend`
(dashboard.py line 175) compares pandas means of the first-3 and
last-3 slices and has no "stable" label: it answers "declining"
whenever the last mean is not strictly greater.  On the spec's example
scores both sites answer "improving". -/
theorem trend_direction_characterization :
    (∀ l : List ℚ,
      (botTrendDirection l = "improving" ↔ botAvgStart l < botAvgEnd l) ∧
      (botTrendDirection l = "declining" ↔ botAvgEnd l < botAvgStart l) ∧
      (botTrendDirection l = "stable" ↔ botAvgStart l = botAvgEnd l) ∧
      (dashboardSentimentTrend l = "improving" ↔
        sliceMean (l.take 3) < sliceMean (l.drop (l.length - 3))) ∧
      (dashboardSentimentTrend l = "declining" ↔
        ¬ sliceMean (l.take 3) < sliceMean (l.drop (l.length - 3)))) ∧
    botTrendDirection [-4/5, -3/5, -7/10, 1/2, 3/5, 7/10] = "improving" ∧
    dashboardSentimentTrend [-4/5, -3/5, -7/10, 1/2, 3/5, 7/10] =
      "improving" := by
  refine ⟨fun l => ⟨(botTrend_cases l).1, (botTrend_cases l).2.1,
    (botTrend_cases l).2.2, (dashboardTrend_cases l).1,
    (dashboardTrend_cases l).2⟩, ?_, ?_⟩
  · norm_num [botTrendDirection, botAvgStart, botAvgEnd]
  · norm_num [dashboardSentimentTrend, sliceMean]

theorem sentimentTrendEval_eq (window : List (Option ℚ))
    (h10 : 10 ≤ window.length)
    (hne : (window.filterMap id).length ≠ 0)
    (h1 : 1 < (window.filterMap id).length) :
    sentimentTrendEval window =
      (max 0 (min 100 (regressionSlope (window.filterMap id) * 1000)),
       decide (0 < regressionSlope (window.filterMap id)) &&
         decide (50 ≤ max 0 (min 100
           (regressionSlope (window.filterMap id) * 1000)))) := by
  unfold sentimentTrendEval
  rw [if_pos h10, if_pos hne, if_pos h1]

/-- C6 amended.  Under the window guards (at least 10 entries, at least
2 sentiment-bearing scores), the `sentiment_trend` branch returns
progress = max(0, min(100, slope * 1000)) — not
min(100, 100 * current_value / criteria_value) — and earns exactly when
the slope is at least 1/20 (equivalently: slope > 0 and progress ≥ 50);
`criteria_value` plays no role. -/
theorem sentiment_trend_amended (window : List (Option ℚ))
    (h10 : 10 ≤ window.length)
    (h2 : 2 ≤ (window.filterMap id).length) :
    sentimentTrendEval window =
      (max 0 (min 100 (regressionSlope (window.filterMap id) * 1000)),
       decide (1/20 ≤ regressionSlope (window.filterMap id))) := by
  rw [sentimentTrendEval_eq window h10 (by omega) (by omega)]
  congr 1
  by_cases hs : (1 : ℚ)/20 ≤ regressionSlope (window.filterMap id)
  · have h0 : (0 : ℚ) < regressionSlope (window.filterMap id) :=
      lt_of_lt_of_le (by norm_num) hs
    have h50 : (50 : ℚ) ≤ max 0 (min 100
        (regressionSlope (window.filterMap id) * 1000)) :=
      le_max_of_le_right (le_min (by norm_num) (by linarith))
    rw [decide_eq_true hs, decide_eq_true h0, decide_eq_true h50]
    rfl
  · have h50 : ¬ (50 : ℚ) ≤ max 0 (min 100
        (regressionSlope (window.filterMap id) * 1000)) := by
      push_neg at hs ⊢
      exact max_lt (by norm_num)
        (lt_of_le_of_lt (min_le_right _ _) (by linarith))
    rw [decide_eq_false hs, decide_eq_false h50, Bool.and_false]

/-- Witness for C6's amended claim at the concrete rising window. -/
theorem sentiment_trend_amended_witness :
    10 ≤ trendWindowExample.length ∧
    2 ≤ (trendWindowExample.filterMap id).length ∧
    sentimentTrendEval trendWindowExample =
      (max 0 (min 100 (regressionSlope (trendWindowExample.filterMap id) * 1000)),
       decide (1/20 ≤ regressionSlope (trendWindowExample.filterMap id))) :=
  ⟨by decide, by decide,
    sentiment_trend_amended trendWindowExample (by decide) (by decide)⟩

/-- C6 counterexample.  On the rising window the regression slope is
1/25, so the claim's current_value = clamp(slope*1000) = 40 meets
criteria_value = 30 with a positive slope and the claim's progress
formula gives min(100, 100*40/30) = 100; the code instead returns
progress 40 and earned = false (its real threshold is progress ≥ 50). -/
theorem sentiment_trend_formula_counterexample :
    sentimentTrendEval trendWindowExample = (40, false) ∧
    regressionSlope (trendWindowExample.filterMap id) = 1/25 ∧
    (0 : ℚ) < 1/25 ∧ (30 : ℚ) ≤ 40 ∧
    (40 : ℚ) ≠ min 100 (100 * 40 / 30) := by
  have hfm : trendWindowExample.filterMap id =
      [0, 1/25, 2/25, 3/25, 4/25, 5/25, 6/25, 7/25, 8/25, 9/25] := rfl
  have hr : List.range 10 = [0, 1, 2, 3, 4, 5, 6, 7, 8, 9] := rfl
  have hs : regressionSlope (trendWindowExample.filterMap id) = 1/25 := by
    rw [hfm]
    norm_num [regressionSlope, hr, List.zip_cons_cons]
  refine ⟨?_, hs, by norm_num, by norm_num, by norm_num⟩
  rw [sentimentTrendEval_eq trendWindowExample (by decide) (by decide)
    (by decide), hs]
  have h1 : max (0 : ℚ) (min 100 (1/25 * 1000)) = 40 := by norm_num
  rw [h1, decide_eq_true (by norm_num : (0 : ℚ) < 1/25),
    decide_eq_false (by norm_num : ¬ (50 : ℚ) ≤ 40), Bool.and_false]

theorem detectLoop_pairs :
    ∀ (l : List ℚ) (a : ℚ), detectLoop (some a) l = flaggedPairs (a :: l) := by
  intro l
  induction l with
  | nil => intro a; rfl
  | cons b bs ih =>
    intro a
    have htail := ih b
    simp only [flaggedPairs, List.tail_cons, List.zip_cons_cons,
      List.filterMap_cons] at htail ⊢
    by_cases hc : 1/2 < |b - a|
    · simp only [detectLoop, if_pos hc]
      rw [htail]
    · simp only [detectLoop, if_neg hc]
      rw [htail]

/-- C8.  A sentiment shift is recorded exactly when two consecutive
5-entry window means differ in absolute value by strictly more than
0.5: the `prev_sentiment` loop of `generate_life_story` computes the
same list as filtering the consecutive pairs of window means by
|difference| > 1/2.  A difference of exactly 1/2 (second example,
window means 0 and 1/2) is not flagged; a difference of 3/5 is. -/
theorem sentiment_shift_exactly_over_half :
    (∀ entries : List (Option ℚ),
      sentimentShifts entries = flaggedPairs (windowMeans entries)) ∧
    sentimentShifts [some 0, some 0, some 0, some 0, some 0, some (5/2)] =
      [] ∧
    sentimentShifts [some 0, some 0, some 0, some 0, some 0, some 3] =
      [3/5] := by
  have hmain : ∀ entries : List (Option ℚ),
      sentimentShifts entries = flaggedPairs (windowMeans entries) := by
    intro entries
    unfold sentimentShifts
    cases h : windowMeans entries with
    | nil => rfl
    | cons a l =>
      show detectLoop (some a) l = flaggedPairs (a :: l)
      exact detectLoop_pairs l a
  have hpair : ∀ a b : ℚ,
      flaggedPairs [a, b] = if 1/2 < |b - a| then [b - a] else [] := by
    intro a b
    simp only [flaggedPairs, List.tail_cons, List.zip_cons_cons,
      List.zip_nil_right, List.filterMap_cons, List.filterMap_nil]
    by_cases hc : 1/2 < |b - a|
    · rw [if_pos hc, if_pos hc]
    · rw [if_neg hc, if_neg hc]
  have hm1 : windowMeans [some 0, some 0, some 0, some 0, some 0,
      some (5/2)] = [0, 1/2] := by
    norm_num [windowMeans, List.range_succ, List.filterMap_cons,
      List.cons_ne_nil]
  have hm2 : windowMeans [some 0, some 0, some 0, some 0, some 0,
      some 3] = [0, 3/5] := by
    norm_num [windowMeans, List.range_succ, List.filterMap_cons,
      List.cons_ne_nil]
  refine ⟨hmain, ?_, ?_⟩
  · rw [hmain, hm1, hpair 0 (1/2)]
    rw [if_neg ?_]
    rw [sub_zero, abs_of_nonneg (by norm_num : (0 : ℚ) ≤ 1/2)]
    norm_num
  · rw [hmain, hm2, hpair 0 (3/5)]
    rw [if_pos ?_]
    · norm_num
    · rw [sub_zero, abs_of_nonneg (by norm_num : (0 : ℚ) ≤ 3/5)]
      norm_num

/-- C3.  gamification.py contradicts its own `# Skip if already earned`
comment (line 201): the skip check matches any existing UserAchievement
row, including in-progress ones.  With the seeded "First Step"
achievement (total_entries, criteria 1): a first pass at 0 entries
stores a progress-0 row (whose `earned_at` is already filled by the
column default); a second pass at 1 entry — where the criterion is now
met, as the last conjunct shows — is skipped entirely, so progress
stays 0 and the achievement is never earned. -/
theorem achievement_progress_frozen :
    checkAchievements [⟨1, CriteriaType.totalEntries, 1⟩]
        ⟨0, 0, 0, 0, 0, 0⟩ [] [] 5 [] =
      [⟨1, 0, 5⟩] ∧
    checkAchievements [⟨1, CriteriaType.totalEntries, 1⟩]
        ⟨1, 5, 0, 1, 1, 0⟩ [] [] 6 [⟨1, 0, 5⟩] =
      [⟨1, 0, 5⟩] ∧
    evalCriteria ⟨1, CriteriaType.totalEntries, 1⟩ ⟨1, 5, 0, 1, 1, 0⟩ [] [] =
      (100, true) := by
  refine ⟨?_, ?_, ?_⟩
  · norm_num [checkAchievements, checkOne, evalCriteria]
  · norm_num [checkAchievements, checkOne]
  · norm_num [evalCriteria]

theorem getLastD_cons₂ (a b : ℤ) (l : List ℤ) :
    (a :: b :: l).getLastD 0 = (b :: l).getLastD 0 := by
  simp [List.getLastD_cons]

theorem chain'_adjacent_lt (pre l : List ℤ) (a b : ℤ)
    (h : (pre ++ a :: b :: l).Chain' (· < ·)) : a < b := by
  have h2 := (List.chain'_append.1 h).2.1
  exact (List.chain'_cons.mp h2).1

/-- In a strictly increasing list, every element is on one side of an
adjacent pair. -/
theorem mem_le_or_ge_of_chain (pre l : List ℤ) (a b : ℤ)
    (h : (pre ++ a :: b :: l).Chain' (· < ·)) :
    ∀ e ∈ pre ++ a :: b :: l, e ≤ a ∨ b ≤ e := by
  have hp : (pre ++ a :: b :: l).Pairwise (· < ·) :=
    List.chain'_iff_pairwise.mp h
  rw [List.pairwise_append] at hp
  obtain ⟨hp1, hp2, hp3⟩ := hp
  intro e he
  rcases List.mem_append.1 he with h1 | h1
  · exact Or.inl (le_of_lt (hp3 e h1 a (List.mem_cons_self a (b :: l))))
  · rcases List.mem_cons.1 h1 with rfl | h2
    · exact Or.inl (le_refl e)
    · rcases List.mem_cons.1 h2 with rfl | h3
      · exact Or.inr (le_refl e)
      · exact Or.inr (le_of_lt
          ((List.pairwise_cons.1 (List.pairwise_cons.1 hp2).2).1 e h3))

theorem head_min_of_chain (d : ℤ) (ds : List ℤ)
    (h : (d :: ds).Chain' (· < ·)) : ∀ e ∈ d :: ds, d ≤ e := by
  have hp := List.chain'_iff_pairwise.mp h
  intro e he
  rcases List.mem_cons.1 he with rfl | h1
  · exact le_refl e
  · exact le_of_lt ((List.pairwise_cons.1 hp).1 e h1)

/-- Invariant of the streak loop on a strictly increasing date list
`S = pre ++ prev :: ds`: if `cur` is the exact length of the
consecutive run ending at `prev` and `mx` the exact maximum run length
over the already-seen elements, the loop returns the exact run length
ending at the last date and the exact maximum run length over all of
`S`. -/
theorem streakLoop_spec :
    ∀ (ds : List ℤ) (S pre : List ℤ) (prev cur mx : ℤ),
      S = pre ++ prev :: ds →
      S.Chain' (· < ·) →
      1 ≤ cur → cur ≤ mx →
      isRun S prev cur →
      (∀ n : ℤ, isRun S prev n → n ≤ cur) →
      (∃ e ∈ S, isRun S e mx) →
      (∀ e ∈ pre ++ [prev], ∀ n : ℤ, isRun S e n → n ≤ mx) →
      isRun S ((prev :: ds).getLastD 0) (streakLoop prev cur mx ds).1 ∧
        (∀ n : ℤ, isRun S ((prev :: ds).getLastD 0) n →
          n ≤ (streakLoop prev cur mx ds).1) ∧
        (∃ e ∈ S, isRun S e (streakLoop prev cur mx ds).2) ∧
        (∀ e ∈ S, ∀ n : ℤ, isRun S e n →
          n ≤ (streakLoop prev cur mx ds).2) := by
  intro ds
  induction ds with
  | nil =>
    intro S pre prev cur mx hS hchain hcur1 hcurmx hrun hmaxrun hatt hseen
    refine ⟨hrun, hmaxrun, hatt, ?_⟩
    intro e he n hn
    apply hseen e ?_ n hn
    rw [hS] at he
    exact he
  | cons d ds2 ih =>
    intro S pre prev cur mx hS hchain hcur1 hcurmx hrun hmaxrun hatt hseen
    have hS' : S = (pre ++ [prev]) ++ d :: ds2 := by rw [hS]; simp
    have hadj : prev < d := chain'_adjacent_lt pre ds2 prev d (hS ▸ hchain)
    have hdS : d ∈ S := by
      rw [hS]
      exact List.mem_append_right _
        (List.mem_cons_of_mem _ (List.mem_cons_self _ _))
    by_cases hd1 : d - prev = 1
    · have hrun' : isRun S d (cur + 1) := by
        intro k hk
        cases k with
        | zero => simpa using hdS
        | succ k2 =>
          have harith : d - ((k2 + 1 : ℕ) : ℤ) = prev - (k2 : ℤ) := by
            push_cast
            omega
          rw [harith]
          exact hrun k2 (by push_cast at hk ⊢; omega)
      have hmaxrun' : ∀ n : ℤ, isRun S d n → n ≤ cur + 1 := by
        intro n hn
        have hp : isRun S prev (n - 1) := by
          intro k hk
          have h2 := hn (k + 1) (by push_cast; omega)
          rwa [show d - ((k + 1 : ℕ) : ℤ) = prev - (k : ℤ) from by
            push_cast; omega] at h2
        have := hmaxrun (n - 1) hp
        omega
      have hatt' : ∃ e ∈ S, isRun S e (max mx (cur + 1)) := by
        rcases le_total (cur + 1) mx with hmo | hmo
        · rw [max_eq_left hmo]
          exact hatt
        · rw [max_eq_right hmo]
          exact ⟨d, hdS, hrun'⟩
      have hseen' : ∀ e ∈ (pre ++ [prev]) ++ [d], ∀ n : ℤ,
          isRun S e n → n ≤ max mx (cur + 1) := by
        intro e he n hn
        rcases List.mem_append.1 he with h1 | h1
        · exact le_trans (hseen e h1 n hn) (le_max_left _ _)
        · have he2 : e = d := by simpa using h1
          subst he2
          exact le_trans (hmaxrun' n hn) (le_max_right _ _)
      have hres := ih S (pre ++ [prev]) d (cur + 1) (max mx (cur + 1)) hS'
        hchain (by omega) (le_max_right _ _) hrun' hmaxrun' hatt' hseen'
      simp only [streakLoop, if_pos hd1]
      rw [getLastD_cons₂]
      exact hres
    · have hd2 : prev + 2 ≤ d := by omega
      have hbetween := mem_le_or_ge_of_chain pre ds2 prev d (hS ▸ hchain)
      have hrun' : isRun S d 1 := by
        intro k hk
        have hk0 : k = 0 := by omega
        subst hk0
        simpa using hdS
      have hmaxrun' : ∀ n : ℤ, isRun S d n → n ≤ 1 := by
        intro n hn
        by_contra hcon
        push_neg at hcon
        have h2 := hn 1 (by push_cast; omega)
        have h3 := hbetween (d - (1 : ℕ)) (hS ▸ h2)
        simp only [Nat.cast_one] at h3
        omega
      have hseen' : ∀ e ∈ (pre ++ [prev]) ++ [d], ∀ n : ℤ,
          isRun S e n → n ≤ mx := by
        intro e he n hn
        rcases List.mem_append.1 he with h1 | h1
        · exact hseen e h1 n hn
        · have he2 : e = d := by simpa using h1
          subst he2
          exact le_trans (hmaxrun' n hn) (by omega)
      have hres := ih S (pre ++ [prev]) d 1 mx hS' hchain (le_refl 1)
        (by omega) hrun' hmaxrun' hatt hseen'
      simp only [streakLoop, if_neg hd1]
      rw [getLastD_cons₂]
      exact hres

/-- C4 amended.  The streak computation does NOT deduplicate the sorted
entry dates, but on date lists whose calendar days are pairwise
distinct (strictly increasing) it behaves exactly as claimed: the
returned max_streak is the length of the longest run of consecutive
calendar days present, the returned current_streak is the length of the
run ending at the most recent entry date, and it is 0 when the most
recent date is more than 1 day before now.  For [D, D+1, D+2, D+5, D+6]
(taking D = 0) this yields (current 2, longest 3) when now = D+6 and
(0, 3) when now = D+9. -/
theorem streaks_spec_on_distinct :
    (∀ (dates : List ℤ) (today : ℤ), dates ≠ [] →
      dates.Chain' (· < ·) →
      (∃ e ∈ dates, isRun dates e (computeStreaks dates today).2) ∧
      (∀ e ∈ dates, ∀ n : ℤ, isRun dates e n →
        n ≤ (computeStreaks dates today).2) ∧
      (1 < today - dates.getLastD 0 → (computeStreaks dates today).1 = 0) ∧
      (today - dates.getLastD 0 ≤ 1 →
        isRun dates (dates.getLastD 0) (computeStreaks dates today).1 ∧
        ∀ n : ℤ, isRun dates (dates.getLastD 0) n →
          n ≤ (computeStreaks dates today).1)) ∧
    computeStreaks [0, 1, 2, 5, 6] 6 = (2, 3) ∧
    computeStreaks [0, 1, 2, 5, 6] 9 = (0, 3) := by
  refine ⟨?_, by decide, by decide⟩
  intro dates today hne hchain
  have hsorted : dates.insertionSort (· ≤ ·) = dates :=
    List.Sorted.insertionSort_eq
      ((List.chain'_iff_pairwise.mp hchain).imp (fun hab => le_of_lt hab))
  cases dates with
  | nil => exact absurd rfl hne
  | cons d ds =>
    have hhead : ∀ e ∈ d :: ds, d ≤ e := head_min_of_chain d ds hchain
    have hrun1 : isRun (d :: ds) d 1 := by
      intro k hk
      have hk0 : k = 0 := by omega
      subst hk0
      simp
    have hmax1 : ∀ n : ℤ, isRun (d :: ds) d n → n ≤ 1 := by
      intro n hn
      by_contra hcon
      push_neg at hcon
      have h2 := hn 1 (by push_cast; omega)
      have h3 := hhead (d - (1 : ℕ)) h2
      simp only [Nat.cast_one] at h3
      omega
    have hres := streakLoop_spec ds (d :: ds) [] d 1 1 (by simp) hchain
      (le_refl 1) (le_refl 1) hrun1 hmax1
      ⟨d, List.mem_cons_self d ds, hrun1⟩
      (by
        intro e he n hn
        have he2 : e = d := by simpa using he
        subst he2
        exact hmax1 n hn)
    obtain ⟨hc1, hc2, hc3, hc4⟩ := hres
    have hcs : computeStreaks (d :: ds) today =
        (if 1 < today - (d :: ds).getLastD 0 then 0
          else (streakLoop d 1 1 ds).1, (streakLoop d 1 1 ds).2) := by
      unfold computeStreaks
      rw [hsorted]
    rw [hcs]
    refine ⟨hc3, hc4, ?_, ?_⟩
    · intro hstale
      simp only [if_pos hstale]
    · intro hfresh
      simp only [if_neg (not_lt.mpr hfresh)]
      exact ⟨hc1, hc2⟩

/-- Witness for C4's amended claim at dates [0, 1, 2, 5, 6],
now = 6. -/
theorem streaks_spec_on_distinct_witness :
    (([0, 1, 2, 5, 6] : List ℤ) ≠ []) ∧
    ([0, 1, 2, 5, 6] : List ℤ).Chain' (· < ·) ∧
    ((∃ e ∈ ([0, 1, 2, 5, 6] : List ℤ),
        isRun [0, 1, 2, 5, 6] e (computeStreaks [0, 1, 2, 5, 6] 6).2) ∧
      (∀ e ∈ ([0, 1, 2, 5, 6] : List ℤ), ∀ n : ℤ,
        isRun [0, 1, 2, 5, 6] e n →
          n ≤ (computeStreaks [0, 1, 2, 5, 6] 6).2) ∧
      (1 < 6 - ([0, 1, 2, 5, 6] : List ℤ).getLastD 0 →
        (computeStreaks [0, 1, 2, 5, 6] 6).1 = 0) ∧
      (6 - ([0, 1, 2, 5, 6] : List ℤ).getLastD 0 ≤ 1 →
        isRun [0, 1, 2, 5, 6] (([0, 1, 2, 5, 6] : List ℤ).getLastD 0)
          (computeStreaks [0, 1, 2, 5, 6] 6).1 ∧
        ∀ n : ℤ, isRun [0, 1, 2, 5, 6]
          (([0, 1, 2, 5, 6] : List ℤ).getLastD 0) n →
            n ≤ (computeStreaks [0, 1, 2, 5, 6] 6).1)) :=
  ⟨by decide, by simp,
    streaks_spec_on_distinct.1 [0, 1, 2, 5, 6] 6 (by decide) (by simp)⟩

/-- C4 counterexample.  The code does not deduplicate by calendar day:
for entry days [0, 1, 1, 2] (two entries on day 1) with now = 2, days
0, 1, 2 are all present, so the claimed (deduplicated) computation
gives longest streak 3 and current streak 3, but the repeated date
resets the loop and the code returns current 2, longest 2. -/
theorem streak_no_dedup_counterexample :
    computeStreaks [0, 1, 1, 2] 2 = (2, 2) ∧
    isRun [0, 1, 1, 2] 2 3 ∧
    ¬ ((3 : ℤ) ≤ (computeStreaks [0, 1, 1, 2] 2).2) ∧
    ¬ ((3 : ℤ) ≤ (computeStreaks [0, 1, 1, 2] 2).1) := by
  refine ⟨by decide, by decide, by decide, by decide⟩

end Journal
